import Mathlib

/-!
Verification of the context-management core of the `ai-chatbot-app` repository
(`src/services/ConversationService.ts`), shallowly embedded in Lean 4.

Conventions of the embedding:
* TypeScript numbers that only ever hold non-negative integers (token counts,
  string lengths, timestamps) are modelled as `Nat`; quantities that mix with
  possibly-negative arithmetic (the trim budget, the `maxTokens` override) are
  modelled as `Int`.
* JavaScript truthiness tests on numbers (`x || d`) are modelled by an
  explicit zero test, and on strings by an explicit emptiness test.
* `Math.floor(limit * 0.8)` is modelled as `Int.fdiv (limit * 8) 10`; for
  every capacity that fits in a 64-bit context window the double-precision
  computation of the source agrees with this exact value.
* Asynchronous storage (`AsyncStorage`) is modelled by passing the stored
  state explicitly: the list of stored conversations, the stored preference
  value, and the stored custom prompts become arguments.
-/

/-- The `StoredMessage` interface of `ConversationService.ts` (lines 4-10).
`timestamp` is an epoch value; `tokens` is the optional cached token count. -/
structure StoredMessage where
  id : String
  text : String
  isUser : Bool
  timestamp : Nat
  tokens : Option Nat
deriving DecidableEq

/-- `ConversationService.estimateTokens` (line 102-104):
`Math.ceil(text.length / 4)`, written with exact natural-number arithmetic
as `(length + 3) / 4`. -/
def estimateTokens (text : String) : Nat :=
  (text.length + 3) / 4

/-- The static capacity table `MODEL_CONTEXT_LIMITS` (lines 33-60), in source
order, as an association list keyed by the exact model identifier. -/
def MODEL_CONTEXT_LIMITS : List (String × Nat) :=
  [ ("gpt-4o", 128000),
    ("gpt-4o-mini", 128000),
    ("gpt-4-turbo", 128000),
    ("gpt-4", 8192),
    ("gpt-3.5-turbo", 4096),
    ("claude-3-5-sonnet-20241022", 200000),
    ("claude-3-5-haiku-20241022", 200000),
    ("claude-3-opus-20240229", 200000),
    ("claude-3-sonnet-20240229", 200000),
    ("claude-3-haiku-20240307", 200000),
    ("gemini-1.5-pro-latest", 2000000),
    ("gemini-1.5-flash-latest", 1000000),
    ("gemini-pro", 32000),
    ("gemini-pro-vision", 16000),
    ("llama-3.1-405b-reasoning", 32768),
    ("llama-3.1-70b-versatile", 32768),
    ("llama-3.1-8b-instant", 8192),
    ("mixtral-8x7b-32768", 32768),
    ("gemma2-9b-it", 8192) ]

/-- Exact-match association-list lookup, the embedding of the JavaScript
property access `MODEL_CONTEXT_LIMITS[modelName]`. -/
def lookupLimit : List (String × Nat) → String → Option Nat
  | [], _ => none
  | (k, v) :: rest, name => if name == k then some v else lookupLimit rest name

/-- `ConversationService.getContextLimit` (lines 107-109):
`MODEL_CONTEXT_LIMITS[modelName] || 4096`.  A missing key yields the default,
and — by JavaScript number truthiness — so would a zero entry. -/
def getContextLimit (modelName : String) : Nat :=
  match lookupLimit MODEL_CONTEXT_LIMITS modelName with
  | some v => if v = 0 then 4096 else v
  | none => 4096

/-- The per-message cost used by the trimming loop (line 128):
`message.tokens || this.estimateTokens(message.text)`.  A cached value of `0`
is falsy in JavaScript and falls back to the estimator. -/
def msgCost (m : StoredMessage) : Nat :=
  match m.tokens with
  | some t => if t = 0 then estimateTokens m.text else t
  | none => estimateTokens m.text

/-- The per-message cost as the claims word it: the cached `tokens` field
whenever it is present, otherwise the estimate of the text. -/
def msgCostSpec (m : StoredMessage) : Nat :=
  match m.tokens with
  | some t => t
  | none => estimateTokens m.text

/-- The context limit used by `trimContext` (line 118):
`maxTokens || this.getContextLimit(modelName)`.  An override of `0` is falsy
in JavaScript and falls back to the capacity table. -/
def trimLimit (modelName : String) (maxTokens : Option Int) : Int :=
  match maxTokens with
  | some m => if m = 0 then (getContextLimit modelName : Int) else m
  | none => (getContextLimit modelName : Int)

/-- Modelled from the spec: step 1 of the trimmer algorithm read literally,
`limit = maxTokensOverride if provided else capacityOf(modelName)` — with no
truthiness test on the override.  Used only to compare the claims' wording
with the behaviour of `trimLimit`. -/
def specLimit (modelName : String) (maxTokens : Option Int) : Int :=
  match maxTokens with
  | some m => m
  | none => (getContextLimit modelName : Int)

/-- The system-prompt cost of `trimContext` (line 119):
`systemPrompt ? this.estimateTokens(systemPrompt) : 0`; the empty string is
falsy (and also estimates to `0`). -/
def systemTokens (systemPrompt : Option String) : Nat :=
  match systemPrompt with
  | some sp => if sp = "" then 0 else estimateTokens sp
  | none => 0

/-- The available token budget of `trimContext` (line 120):
`Math.floor(contextLimit * 0.8) - systemTokens`. -/
def trimAvailable (modelName : String) (systemPrompt : Option String)
    (maxTokens : Option Int) : Int :=
  Int.fdiv (trimLimit modelName maxTokens * 8) 10 - (systemTokens systemPrompt : Int)

/-- The backward walk of `trimContext` (lines 126-137), expressed on the
reversed message list: admit a message while the running total stays within
the budget, and stop at the first message that does not fit. -/
def trimTake (available : Int) (total : Nat) : List StoredMessage → List StoredMessage
  | [] => []
  | m :: rest =>
    if ((total + msgCost m : Nat) : Int) ≤ available then
      m :: trimTake available (total + msgCost m) rest
    else []

/-- `ConversationService.trimContext` (lines 112-145).  The backward loop is
`trimTake` over the reversed list (un-reversed again, as `unshift` builds the
output in original order); the final `if` is the force-include of the most
recent message when the walk admitted nothing and the input was non-empty. -/
def trimContext (messages : List StoredMessage) (modelName : String)
    (systemPrompt : Option String) (maxTokens : Option Int) : List StoredMessage :=
  let available := trimAvailable modelName systemPrompt maxTokens
  let trimmed := (trimTake available 0 messages.reverse).reverse
  if trimmed.length = 0 ∧ 0 < messages.length then
    match messages.getLast? with
    | some m => [m]
    | none => []
  else trimmed

/-- The ASCII fragment of the whitespace set removed by JavaScript
`String.prototype.trim` (space, tab, line feed, vertical tab, form feed,
carriage return). -/
def isJsWhitespace (c : Char) : Bool :=
  (c == ' ') || (c == Char.ofNat 9) || (c == Char.ofNat 10) ||
  (c == Char.ofNat 11) || (c == Char.ofNat 12) || (c == Char.ofNat 13)

/-- Removal of leading and trailing whitespace, the embedding of
`firstMessage.trim()` on the character list of the string. -/
def trimChars (l : List Char) : List Char :=
  ((l.dropWhile isJsWhitespace).reverse.dropWhile isJsWhitespace).reverse

/-- The `cleaned` value of `generateConversationTitle` (line 224):
`firstMessage.trim().replace(/\n/g, ' ')` — trim first, then replace every
line feed by a space (a single-character global replace is a character map). -/
def cleanedTitle (firstMessage : String) : String :=
  String.mk ((trimChars firstMessage.data).map
    (fun c => if c = Char.ofNat 10 then ' ' else c))

/-- Modelled from the claim wording of C7: newline collapsing only, with no
trimming step.  Used to compare the claim with the source behaviour. -/
def specCollapsedTitle (firstMessage : String) : String :=
  String.mk (firstMessage.data.map (fun c => if c = Char.ofNat 10 then ' ' else c))

/-- `ConversationService.generateConversationTitle` (lines 222-229):
return `cleaned` when its length is at most 50, else the first 47 characters
of `cleaned` followed by `"..."`. -/
def generateConversationTitle (firstMessage : String) : String :=
  let maxLength := 50
  let cleaned := cleanedTitle firstMessage
  if cleaned.length ≤ maxLength then cleaned
  else String.mk (cleaned.data.take (maxLength - 3)) ++ "..."

/-- The `Conversation` interface of `ConversationService.ts` (lines 12-21);
`createdAt` and `updatedAt` are epoch timestamps. -/
structure Conversation where
  id : String
  title : String
  messages : List StoredMessage
  providerId : String
  modelName : String
  systemPrompt : Option String
  createdAt : Nat
  updatedAt : Nat
deriving DecidableEq

/-- `ConversationService.saveConversation` (lines 171-187) on the explicit
stored list (the value behind the conversations storage key) at save time
`now`: `findIndex` locates the first stored conversation with the same id and
the assignment replaces it with the argument carrying a refreshed
`updatedAt`; when no index matches, `push` appends the argument as given,
without refreshing `updatedAt`. -/
def saveConversation (now : Nat) : List Conversation → Conversation → List Conversation
  | [], c => [c]
  | x :: rest, c =>
    if x.id == c.id then { c with updatedAt := now } :: rest
    else x :: saveConversation now rest c

/-- The `SystemPrompt` interface of `ConversationService.ts` (lines 23-30). -/
structure SystemPrompt where
  id : String
  name : String
  prompt : String
  isDefault : Bool
  providerId : Option String
  modelName : Option String
deriving DecidableEq

/-- The first entry of `DEFAULT_SYSTEM_PROMPTS` (lines 64-69), whose `prompt`
text is the fallback value `DEFAULT_SYSTEM_PROMPTS[0].prompt`. -/
def defaultAssistantPrompt : SystemPrompt :=
  ⟨"default", "Default Assistant",
    "You are a helpful AI assistant. Be concise, accurate, and friendly in your responses.",
    true, none, none⟩

/-- The built-in prompt list `DEFAULT_SYSTEM_PROMPTS` (lines 63-94), in
source order. -/
def DEFAULT_SYSTEM_PROMPTS : List SystemPrompt :=
  [ defaultAssistantPrompt,
    ⟨"creative", "Creative Writer",
      "You are a creative writing assistant. Help with storytelling, character development, and imaginative content. Be creative and inspiring.",
      true, none, none⟩,
    ⟨"technical", "Technical Expert",
      "You are a technical expert and programming assistant. Provide accurate, detailed technical information and code examples when appropriate.",
      true, none, none⟩,
    ⟨"teacher", "Patient Teacher",
      "You are a patient and encouraging teacher. Explain concepts clearly, provide examples, and adapt your explanations to the user\x27s level of understanding.",
      true, none, none⟩,
    ⟨"analyst", "Research Analyst",
      "You are a research analyst. Provide thorough analysis, cite sources when possible, and present information in a structured, objective manner.",
      true, none, none⟩ ]

/-- `ConversationService.getSystemPrompts` (lines 232-241): the built-in
prompts followed by the stored custom prompts. -/
def getSystemPrompts (customPrompts : List SystemPrompt) : List SystemPrompt :=
  DEFAULT_SYSTEM_PROMPTS ++ customPrompts

/-- `ConversationService.getSelectedSystemPrompt` (lines 283-295) on the
explicit stored state: `storedPromptId` is the value behind the preference
key for the (provider, model) pair and `customPrompts` the stored custom
prompt list.  An absent or empty stored id (`if (promptId)` is falsy on the
empty string) yields the first built-in prompt's text; otherwise the merged
catalog is searched by id, and `prompt?.prompt || DEFAULT_SYSTEM_PROMPTS[0].prompt`
yields the found prompt's text unless it is missing or empty. -/
def getSelectedSystemPrompt (storedPromptId : Option String)
    (customPrompts : List SystemPrompt) : String :=
  match storedPromptId with
  | some promptId =>
    if promptId = "" then defaultAssistantPrompt.prompt
    else
      match (getSystemPrompts customPrompts).find? (fun p => p.id == promptId) with
      | some p => if p.prompt = "" then defaultAssistantPrompt.prompt else p.prompt
      | none => defaultAssistantPrompt.prompt
  | none => defaultAssistantPrompt.prompt

theorem lookupLimit_mem {l : List (String × Nat)} {name : String} {v : Nat}
    (h : lookupLimit l name = some v) : (name, v) ∈ l := by
  induction l with
  | nil => simp [lookupLimit] at h
  | cons p rest ih =>
    obtain ⟨k, w⟩ := p
    rw [lookupLimit] at h
    split at h
    · rename_i hk
      cases h
      have hnk : name = k := by simpa using hk
      subst hnk
      exact List.mem_cons_self _ _
    · exact List.mem_cons_of_mem _ (ih h)

/-- C4: `estimateTokens` computes `ceil(length / 4)`; it is monotone in the
length of its argument, and takes the values 0, 1, 2 on the example strings
`""`, `"abcd"`, `"abcde"`. -/
theorem estimateTokens_ceil_mono :
    (∀ s : String, (estimateTokens s : ℤ) = ⌈(s.length : ℚ) / 4⌉) ∧
    (∀ a b : String, a.length ≤ b.length → estimateTokens a ≤ estimateTokens b) ∧
    estimateTokens "" = 0 ∧ estimateTokens "abcd" = 1 ∧ estimateTokens "abcde" = 2 := by
  refine ⟨?_, ?_, by decide, by decide, by decide⟩
  · intro s
    unfold estimateTokens
    set q := (s.length + 3) / 4 with hq
    symm
    rw [Int.ceil_eq_iff]
    have h4 : (0 : ℚ) < 4 := by norm_num
    have h1 : q * 4 ≤ s.length + 3 := Nat.div_mul_le_self _ _
    have h2 : s.length + 3 < (q + 1) * 4 :=
      (Nat.div_lt_iff_lt_mul (by norm_num)).mp (Nat.lt_succ_self _)
    have h1q : (q : ℚ) * 4 ≤ (s.length : ℚ) + 3 := by
      exact_mod_cast h1
    have h2q : (s.length : ℚ) + 3 < ((q : ℚ) + 1) * 4 := by
      exact_mod_cast h2
    constructor
    · refine (lt_div_iff₀ h4).mpr ?_
      push_cast
      linarith
    · refine (div_le_iff₀ h4).mpr ?_
      have hle : s.length ≤ q * 4 := by omega
      have hleq : (s.length : ℚ) ≤ (q : ℚ) * 4 := by exact_mod_cast hle
      push_cast
      linarith
  · intro a b h
    exact Nat.div_le_div_right (Nat.add_le_add_right h 3)

/-- A witness instantiating the monotonicity conjunct of
`estimateTokens_ceil_mono` on the concrete pair `"ab"`, `"abcd"`. -/
theorem estimateTokens_ceil_mono_inst :
    ("ab" : String).length ≤ ("abcd" : String).length ∧
    estimateTokens "ab" ≤ estimateTokens "abcd" :=
  ⟨by decide, estimateTokens_ceil_mono.2.1 "ab" "abcd" (by decide)⟩

/-- C5: `getContextLimit` is an exact-match, case-sensitive lookup in the
static table with default 4096: a key present in the table yields its table
value, an absent key yields 4096, and in particular the examples
`"unknown-model-xyz" ↦ 4096`, `"gpt-4o" ↦ 128000` hold (a case variant of a
table key is a miss). -/
theorem getContextLimit_lookup :
    getContextLimit "unknown-model-xyz" = 4096 ∧
    getContextLimit "gpt-4o" = 128000 ∧
    getContextLimit "GPT-4o" = 4096 ∧
    (∀ name : String, lookupLimit MODEL_CONTEXT_LIMITS name = none →
      getContextLimit name = 4096) ∧
    (∀ (name : String) (v : Nat), lookupLimit MODEL_CONTEXT_LIMITS name = some v →
      getContextLimit name = v) := by
  refine ⟨by decide, by decide, by decide, ?_, ?_⟩
  · intro name h
    simp [getContextLimit, h]
  · intro name v h
    have hm : (name, v) ∈ MODEL_CONTEXT_LIMITS := lookupLimit_mem h
    have hv : v ≠ 0 := by
      have : ∀ p ∈ MODEL_CONTEXT_LIMITS, p.2 ≠ 0 := by decide
      exact this _ hm
    simp [getContextLimit, h, hv]

/-- A witness instantiating the lookup conjuncts of `getContextLimit_lookup`
on a concrete miss and a concrete hit. -/
theorem getContextLimit_lookup_inst :
    (lookupLimit MODEL_CONTEXT_LIMITS "no-such-model" = none ∧
      getContextLimit "no-such-model" = 4096) ∧
    (lookupLimit MODEL_CONTEXT_LIMITS "gpt-4" = some 8192 ∧
      getContextLimit "gpt-4" = 8192) :=
  ⟨⟨by decide, getContextLimit_lookup.2.2.2.1 "no-such-model" (by decide)⟩,
   ⟨by decide, getContextLimit_lookup.2.2.2.2 "gpt-4" 8192 (by decide)⟩⟩

/-- C10: every entry of the static capacity table is at least 4096, and
consequently `getContextLimit` returns at least 4096 on every input. -/
theorem getContextLimit_ge_default :
    (∀ p ∈ MODEL_CONTEXT_LIMITS, 4096 ≤ p.2) ∧
    (∀ name : String, 4096 ≤ getContextLimit name) := by
  have htab : ∀ p ∈ MODEL_CONTEXT_LIMITS, 4096 ≤ p.2 := by decide
  refine ⟨htab, ?_⟩
  intro name
  cases h : lookupLimit MODEL_CONTEXT_LIMITS name with
  | none => simp [getContextLimit, h]
  | some v =>
    by_cases hv : v = 0
    · simp [getContextLimit, h, hv]
    · have hle : 4096 ≤ v := htab _ (lookupLimit_mem h)
      simpa [getContextLimit, h, hv] using hle

/-- A witness instantiating the table conjunct of `getContextLimit_ge_default`
on the concrete entry for `"gpt-4o"`. -/
theorem getContextLimit_ge_default_inst :
    ("gpt-4o", 128000) ∈ MODEL_CONTEXT_LIMITS ∧ 4096 ≤ (("gpt-4o", 128000) : String × Nat).2 :=
  ⟨by decide, getContextLimit_ge_default.1 _ (by decide)⟩

theorem trimContext_eq (messages : List StoredMessage) (modelName : String)
    (systemPrompt : Option String) (maxTokens : Option Int) :
    trimContext messages modelName systemPrompt maxTokens =
      if (trimTake (trimAvailable modelName systemPrompt maxTokens) 0
            messages.reverse).reverse.length = 0 ∧ 0 < messages.length then
        match messages.getLast? with
        | some m => [m]
        | none => []
      else (trimTake (trimAvailable modelName systemPrompt maxTokens) 0
              messages.reverse).reverse := rfl

theorem trimTake_append (a : Int) :
    ∀ (total : Nat) (l : List StoredMessage), ∃ l2, trimTake a total l ++ l2 = l := by
  intro total l
  induction l generalizing total with
  | nil => exact ⟨[], rfl⟩
  | cons m rest ih =>
    rw [trimTake]
    by_cases hc : ((total + msgCost m : Nat) : Int) ≤ a
    · obtain ⟨l2, hl2⟩ := ih (total + msgCost m)
      rw [if_pos hc]
      exact ⟨l2, by rw [List.cons_append, hl2]⟩
    · rw [if_neg hc]
      exact ⟨m :: rest, rfl⟩

theorem trimTake_sum (a : Int) :
    ∀ (total : Nat) (l : List StoredMessage),
      trimTake a total l = [] ∨
      (total : Int) + (((trimTake a total l).map msgCost).sum : Int) ≤ a := by
  intro total l
  induction l generalizing total with
  | nil => exact Or.inl rfl
  | cons m rest ih =>
    rw [trimTake]
    by_cases hc : ((total + msgCost m : Nat) : Int) ≤ a
    · rw [if_pos hc]
      refine Or.inr ?_
      rcases ih (total + msgCost m) with h0 | hs
      · rw [h0]
        simpa using hc
      · rw [List.map_cons, List.sum_cons]
        push_cast at hs ⊢
        linarith
    · rw [if_neg hc]
      exact Or.inl rfl

theorem trimTake_nil_of_big {a : Int} {m : StoredMessage} (t : List StoredMessage)
    (h : a < (msgCost m : Int)) : trimTake a 0 (m :: t) = [] := by
  rw [trimTake, if_neg]
  simpa using not_le.mpr h

theorem exists_reverse_cons {α : Type} (l : List α) (m : α)
    (h : l.getLast? = some m) : ∃ t, l.reverse = m :: t := by
  have hh : l.reverse.head? = some m := by rw [List.head?_reverse]; exact h
  cases hr : l.reverse with
  | nil => rw [hr] at hh; simp at hh
  | cons x t =>
    rw [hr] at hh
    simp only [List.head?_cons, Option.some.injEq] at hh
    subst hh
    exact ⟨t, rfl⟩

theorem append_drop_eq {α : Type} (t s whole : List α) (h : whole = t ++ s) :
    s = whole.drop t.length := by
  subst h
  exact (List.drop_left _ _).symm

theorem getLast?_drop_sub_one {α : Type} (l : List α) (m : α)
    (h : l.getLast? = some m) : l.drop (l.length - 1) = [m] := by
  obtain ⟨t, ht⟩ := exists_reverse_cons l m h
  have hl : l = t.reverse ++ [m] := by
    have h2 := congrArg List.reverse ht
    rw [List.reverse_reverse] at h2
    rw [h2, List.reverse_cons]
  rw [hl]
  have hlen : (t.reverse ++ [m]).length - 1 = t.reverse.length := by simp
  rw [hlen, List.drop_left]

/-- C1: for every message list, model name, optional system prompt and
optional override, the result of `trimContext` is a contiguous suffix of the
input: there is an index `k` with the result equal to `messages.drop k`. -/
theorem trimContext_suffix (messages : List StoredMessage) (modelName : String)
    (systemPrompt : Option String) (maxTokens : Option Int) :
    ∃ k, trimContext messages modelName systemPrompt maxTokens = messages.drop k := by
  rw [trimContext_eq]
  by_cases hc : (trimTake (trimAvailable modelName systemPrompt maxTokens) 0
      messages.reverse).reverse.length = 0 ∧ 0 < messages.length
  · rw [if_pos hc]
    cases hl : messages.getLast? with
    | none =>
      have hnil : messages = [] := List.getLast?_eq_none_iff.mp hl
      exact ⟨0, by simp [hnil]⟩
    | some m =>
      exact ⟨messages.length - 1, (getLast?_drop_sub_one messages m hl).symm⟩
  · rw [if_neg hc]
    obtain ⟨l2, hl2⟩ :=
      trimTake_append (trimAvailable modelName systemPrompt maxTokens) 0 messages.reverse
    have hmsg : messages = l2.reverse ++
        (trimTake (trimAvailable modelName systemPrompt maxTokens) 0
          messages.reverse).reverse := by
      have h2 := congrArg List.reverse hl2
      rw [List.reverse_append, List.reverse_reverse] at h2
      exact h2.symm
    exact ⟨l2.reverse.length, append_drop_eq _ _ _ hmsg⟩

/-- C2: `trimContext` returns the empty list exactly on empty input; when
the last message alone already exceeds the budget (so the backward walk
admits nothing), exactly that single most recent message is force-included.
The embedding is a total function, matching the no-throw contract. -/
theorem trimContext_nonempty (messages : List StoredMessage) (modelName : String)
    (systemPrompt : Option String) (maxTokens : Option Int) :
    (trimContext messages modelName systemPrompt maxTokens = [] ↔ messages = []) ∧
    (∀ m, messages.getLast? = some m →
      trimAvailable modelName systemPrompt maxTokens < (msgCost m : Int) →
      trimContext messages modelName systemPrompt maxTokens = [m]) := by
  constructor
  · constructor
    · intro h
      by_contra hne
      have hpos : 0 < messages.length := List.length_pos.mpr hne
      rw [trimContext_eq] at h
      by_cases hc : (trimTake (trimAvailable modelName systemPrompt maxTokens) 0
          messages.reverse).reverse.length = 0 ∧ 0 < messages.length
      · rw [if_pos hc] at h
        cases hl : messages.getLast? with
        | none => exact hne (List.getLast?_eq_none_iff.mp hl)
        | some m => rw [hl] at h; simp at h
      · rw [if_neg hc] at h
        have h0 : (trimTake (trimAvailable modelName systemPrompt maxTokens) 0
            messages.reverse).reverse.length = 0 := by rw [h]; rfl
        exact hc ⟨h0, hpos⟩
    · intro h
      subst h
      rfl
  · intro m hm hcost
    obtain ⟨t, ht⟩ := exists_reverse_cons messages m hm
    have hR0 : trimTake (trimAvailable modelName systemPrompt maxTokens) 0
        messages.reverse = [] := by
      rw [ht]
      exact trimTake_nil_of_big t hcost
    have hne : messages ≠ [] := by
      intro h0
      rw [h0] at hm
      simp at hm
    rw [trimContext_eq, if_pos ⟨by rw [hR0]; rfl, List.length_pos.mpr hne⟩, hm]

/-- A witness instantiating `trimContext_nonempty` on a single message whose
cached cost exceeds the default budget. -/
theorem trimContext_nonempty_inst :
    (([⟨"1", "", false, 0, some 999999⟩] : List StoredMessage).getLast?
        = some ⟨"1", "", false, 0, some 999999⟩) ∧
    trimAvailable "some-model" none none < (msgCost ⟨"1", "", false, 0, some 999999⟩ : Int) ∧
    trimContext [⟨"1", "", false, 0, some 999999⟩] "some-model" none none
      = [⟨"1", "", false, 0, some 999999⟩] :=
  ⟨by decide, by decide,
    (trimContext_nonempty [⟨"1", "", false, 0, some 999999⟩] "some-model" none none).2
      ⟨"1", "", false, 0, some 999999⟩ (by decide) (by decide)⟩

theorem msgCostSpec_le (m : StoredMessage) : msgCostSpec m ≤ msgCost m := by
  unfold msgCostSpec msgCost
  cases m.tokens with
  | none => exact le_refl _
  | some t =>
    by_cases ht : t = 0
    · simp [ht]
    · simp [ht]

/-- C3 (amended): if the trimmed result holds more than one message, the sum
of the costs the claim describes (cached `tokens` if present, else the
estimate of the text) stays within the budget
`floor(limit * 0.8) - systemTokens`, where `limit` is the override when it is
provided and non-zero, and the capacity-table value otherwise (a zero
override is falsy in the source and falls back to the table); ties are
included by the walk's `<=` test. -/
theorem trimContext_budget (messages : List StoredMessage) (modelName : String)
    (systemPrompt : Option String) (maxTokens : Option Int)
    (h : 1 < (trimContext messages modelName systemPrompt maxTokens).length) :
    (((trimContext messages modelName systemPrompt maxTokens).map msgCostSpec).sum : Int)
      ≤ trimAvailable modelName systemPrompt maxTokens := by
  rw [trimContext_eq] at h ⊢
  by_cases hc : (trimTake (trimAvailable modelName systemPrompt maxTokens) 0
      messages.reverse).reverse.length = 0 ∧ 0 < messages.length
  · rw [if_pos hc] at h ⊢
    cases hl : messages.getLast? with
    | none => rw [hl] at h; simp at h
    | some m => rw [hl] at h; simp at h
  · rw [if_neg hc] at h ⊢
    have hRne : trimTake (trimAvailable modelName systemPrompt maxTokens) 0
        messages.reverse ≠ [] := by
      intro h0
      rw [h0] at h
      simp at h
    rcases trimTake_sum (trimAvailable modelName systemPrompt maxTokens) 0
        messages.reverse with h0 | hsum
    · exact absurd h0 hRne
    · have hspec : ((trimTake (trimAvailable modelName systemPrompt maxTokens) 0
          messages.reverse).map msgCostSpec).sum
          ≤ ((trimTake (trimAvailable modelName systemPrompt maxTokens) 0
          messages.reverse).map msgCost).sum :=
        List.sum_le_sum (fun i _ => msgCostSpec_le i)
      rw [List.map_reverse, List.sum_reverse]
      have hspec' : (((trimTake (trimAvailable modelName systemPrompt maxTokens) 0
          messages.reverse).map msgCostSpec).sum : Int)
          ≤ (((trimTake (trimAvailable modelName systemPrompt maxTokens) 0
          messages.reverse).map msgCost).sum : Int) := by exact_mod_cast hspec
      linarith

/-- A witness instantiating `trimContext_budget` on two cheap messages under
the `gpt-4o` budget. -/
theorem trimContext_budget_inst :
    1 < (trimContext [⟨"1", "", true, 0, some 1⟩, ⟨"2", "", false, 1, some 1⟩]
          "gpt-4o" none none).length ∧
    (((trimContext [⟨"1", "", true, 0, some 1⟩, ⟨"2", "", false, 1, some 1⟩]
          "gpt-4o" none none).map msgCostSpec).sum : Int)
      ≤ trimAvailable "gpt-4o" none none :=
  ⟨by decide,
    trimContext_budget [⟨"1", "", true, 0, some 1⟩, ⟨"2", "", false, 1, some 1⟩]
      "gpt-4o" none none (by decide)⟩

/-- Counterexample to C3 as stated: with the override `0` provided, the claim
reads the budget as `floor(0 * 0.8) - 0 = 0`, yet the code (for which `0` is
a falsy override, replaced by the table capacity of `gpt-4o`) returns two
messages whose claimed cost sum is `2 > 0`. -/
theorem trimContext_budget_cex :
    1 < (trimContext [⟨"1", "abcd", true, 0, none⟩, ⟨"2", "abcd", false, 1, none⟩]
          "gpt-4o" none (some 0)).length ∧
    (((trimContext [⟨"1", "abcd", true, 0, none⟩, ⟨"2", "abcd", false, 1, none⟩]
          "gpt-4o" none (some 0)).map msgCostSpec).sum : Int) = 2 ∧
    Int.fdiv (specLimit "gpt-4o" (some 0) * 8) 10 - (systemTokens none : Int) = 0 ∧
    ¬ ((2 : Int) ≤ 0) := by
  refine ⟨by decide, by decide, by decide, by decide⟩

/-- Counterexample to C6 as stated: the claim asserts the limit used equals
the override for every provided integer including `0`, but for the provided
override `0` the code uses the capacity-table value `128000`, not `0`. -/
theorem trimLimit_zero_cex :
    specLimit "gpt-4o" (some 0) = 0 ∧
    trimLimit "gpt-4o" (some 0) = 128000 ∧
    trimLimit "gpt-4o" (some 0) ≠ specLimit "gpt-4o" (some 0) := by
  refine ⟨by decide, by decide, by decide⟩

/-- C6 (amended): a provided non-zero `maxTokens` override fully replaces the
capacity-table lookup, independently of the model name; a provided override
of `0` is falsy in the source and falls back to the table, as does an absent
override. -/
theorem trimLimit_override (modelName : String) :
    (∀ m : Int, m ≠ 0 → trimLimit modelName (some m) = m) ∧
    trimLimit modelName (some 0) = (getContextLimit modelName : Int) ∧
    trimLimit modelName none = (getContextLimit modelName : Int) := by
  refine ⟨?_, ?_, rfl⟩
  · intro m hm
    simp [trimLimit, hm]
  · simp [trimLimit]

/-- A witness instantiating `trimLimit_override` on the non-zero override `5`
for a model whose table capacity differs from `5`. -/
theorem trimLimit_override_inst :
    (5 : Int) ≠ 0 ∧ trimLimit "gpt-4o" (some 5) = 5 :=
  ⟨by decide, (trimLimit_override "gpt-4o").1 5 (by decide)⟩

/-- Counterexample to C7 as stated: on the input `" a"` the claim predicts
the collapsed string `" a"` back unchanged (its length is at most 50), but
the code trims the leading space first and returns `"a"`. -/
theorem generateConversationTitle_cex :
    specCollapsedTitle " a" = " a" ∧
    (specCollapsedTitle " a").length ≤ 50 ∧
    generateConversationTitle " a" = "a" ∧
    ("a" : String) ≠ " a" := by
  refine ⟨by decide, by decide, by decide, by decide⟩

/-- C7 (amended): `generateConversationTitle` first trims leading and
trailing whitespace and then replaces each newline with a space; if the
resulting string has length at most 50 it is returned unchanged, otherwise
the result is its first 47 characters followed by `"..."`; the input
`"Hello\nworld"` yields `"Hello world"`. -/
theorem generateConversationTitle_spec :
    (∀ s : String, (cleanedTitle s).length ≤ 50 →
      generateConversationTitle s = cleanedTitle s) ∧
    (∀ s : String, 50 < (cleanedTitle s).length →
      generateConversationTitle s =
        String.mk ((cleanedTitle s).data.take 47) ++ "...") ∧
    generateConversationTitle "Hello\nworld" = "Hello world" := by
  refine ⟨?_, ?_, by decide⟩
  · intro s h
    simp [generateConversationTitle, h]
  · intro s h
    simp [generateConversationTitle, Nat.not_le.mpr h]

/-- A witness instantiating both branches of `generateConversationTitle_spec`
on concrete short and long inputs. -/
theorem generateConversationTitle_spec_inst :
    ((cleanedTitle "hi").length ≤ 50 ∧ generateConversationTitle "hi" = cleanedTitle "hi") ∧
    (50 < (cleanedTitle "0123456789012345678901234567890123456789012345678901234567").length ∧
      generateConversationTitle "0123456789012345678901234567890123456789012345678901234567" =
        String.mk ((cleanedTitle
          "0123456789012345678901234567890123456789012345678901234567").data.take 47) ++ "...") :=
  ⟨⟨by decide, generateConversationTitle_spec.1 "hi" (by decide)⟩,
   ⟨by decide, generateConversationTitle_spec.2.1
      "0123456789012345678901234567890123456789012345678901234567" (by decide)⟩⟩

/-- Counterexample to C8 as stated: saving a conversation whose id is new at
save time `7` stores it with its own `updatedAt = 0`; the timestamp is not
refreshed on insert, only on update. -/
theorem saveConversation_cex :
    saveConversation 7 [] (⟨"c1", "t", [], "openai", "gpt-4o", none, 0, 0⟩ : Conversation)
      = [⟨"c1", "t", [], "openai", "gpt-4o", none, 0, 0⟩] ∧
    ((⟨"c1", "t", [], "openai", "gpt-4o", none, 0, 0⟩ : Conversation).updatedAt = 0) ∧
    (0 : Nat) ≠ 7 := by
  refine ⟨by decide, by decide, by decide⟩

theorem saveConversation_append (now : Nat) (stored : List Conversation)
    (c : Conversation) (h : stored.any (fun x => x.id == c.id) = false) :
    saveConversation now stored c = stored ++ [c] := by
  induction stored with
  | nil => rfl
  | cons x rest ih =>
    rw [List.any_cons, Bool.or_eq_false_iff] at h
    rw [saveConversation, if_neg (by simp [h.1]), ih h.2]
    rfl

theorem saveConversation_filter_eq (now : Nat) (stored : List Conversation)
    (c : Conversation) (hnd : (stored.map (fun x => x.id)).Nodup)
    (h : stored.any (fun x => x.id == c.id) = true) :
    (saveConversation now stored c).filter (fun x => x.id == c.id)
      = [{ c with updatedAt := now }] := by
  induction stored with
  | nil => simp at h
  | cons x rest ih =>
    rw [List.map_cons, List.nodup_cons] at hnd
    rw [saveConversation]
    by_cases hx : x.id == c.id
    · rw [if_pos hx]
      have hcid : ({ c with updatedAt := now } : Conversation).id = c.id := rfl
      rw [List.filter_cons_of_pos (by simp [hcid])]
      have hrest : rest.filter (fun x => x.id == c.id) = [] := by
        rw [List.filter_eq_nil_iff]
        intro y hy hyc
        apply hnd.1
        have hxc : x.id = c.id := by simpa using hx
        have hyc' : y.id = c.id := by simpa using hyc
        rw [hxc, ← hyc']
        exact List.mem_map_of_mem (fun z => z.id) hy
      rw [hrest]
    · rw [if_neg hx]
      rw [List.any_cons, Bool.or_eq_true_iff] at h
      rcases h with h | h
      · exact absurd h hx
      · rw [List.filter_cons_of_neg (by simpa using hx)]
        exact ih hnd.2 h

theorem saveConversation_frame (now : Nat) (stored : List Conversation)
    (c : Conversation) :
    (saveConversation now stored c).filter (fun x => !(x.id == c.id))
      = stored.filter (fun x => !(x.id == c.id)) := by
  induction stored with
  | nil =>
    show List.filter _ [c] = []
    rw [List.filter_cons_of_neg (by simp)]
    rfl
  | cons x rest ih =>
    rw [saveConversation]
    by_cases hx : x.id == c.id
    · rw [if_pos hx]
      have hcid : ({ c with updatedAt := now } : Conversation).id = c.id := rfl
      rw [List.filter_cons_of_neg (by simp [hcid]),
        List.filter_cons_of_neg (by simpa using hx)]
    · rw [if_neg hx]
      rw [List.filter_cons_of_pos (by simpa using hx),
        List.filter_cons_of_pos (by simpa using hx), ih]

/-- C8 (amended): assuming the stored ids are pairwise distinct,
`saveConversation` upserts by id — the result contains exactly one
conversation with the argument's id; when the id was already present that
entry is the argument with `updatedAt` refreshed to the save time; when the
id is new the argument is appended unchanged, keeping its own `updatedAt`
(the source refreshes the timestamp only on update, not on insert); every
stored conversation with a different id is preserved. -/
theorem saveConversation_upsert (now : Nat) (stored : List Conversation)
    (c : Conversation) (hnd : (stored.map (fun x => x.id)).Nodup) :
    ((saveConversation now stored c).filter (fun x => x.id == c.id)).length = 1 ∧
    (stored.any (fun x => x.id == c.id) = true →
      (saveConversation now stored c).filter (fun x => x.id == c.id)
        = [{ c with updatedAt := now }]) ∧
    (stored.any (fun x => x.id == c.id) = false →
      saveConversation now stored c = stored ++ [c]) ∧
    ((saveConversation now stored c).filter (fun x => !(x.id == c.id))
      = stored.filter (fun x => !(x.id == c.id))) := by
  refine ⟨?_, fun h => saveConversation_filter_eq now stored c hnd h,
    fun h => saveConversation_append now stored c h,
    saveConversation_frame now stored c⟩
  cases hany : stored.any (fun x => x.id == c.id) with
  | true =>
    rw [saveConversation_filter_eq now stored c hnd hany]
    rfl
  | false =>
    rw [saveConversation_append now stored c hany, List.filter_append]
    have h1 : stored.filter (fun x => x.id == c.id) = [] := by
      rw [List.filter_eq_nil_iff]
      intro y hy hyc
      have : stored.any (fun x => x.id == c.id) = true :=
        List.any_eq_true.mpr ⟨y, hy, hyc⟩
      rw [this] at hany
      cases hany
    rw [h1, List.filter_cons_of_pos (by simp)]
    rfl

/-- A witness instantiating `saveConversation_upsert` on a concrete
one-element store with a distinct id (the insert case). -/
theorem saveConversation_upsert_inst :
    (([⟨"a", "t", [], "p", "m", none, 0, 0⟩] : List Conversation).map
        (fun x => x.id)).Nodup ∧
    ((saveConversation 5 [⟨"a", "t", [], "p", "m", none, 0, 0⟩]
        ⟨"b", "u", [], "p", "m", none, 0, 0⟩).filter
        (fun x => x.id == (⟨"b", "u", [], "p", "m", none, 0, 0⟩ : Conversation).id)).length
      = 1 :=
  ⟨by decide,
    (saveConversation_upsert 5 [⟨"a", "t", [], "p", "m", none, 0, 0⟩]
      ⟨"b", "u", [], "p", "m", none, 0, 0⟩ (by decide)).1⟩

/-- Counterexample to C9 as stated: a stored id that resolves to a custom
prompt whose text is the empty string does not return that prompt's text —
the empty text is falsy and the first built-in prompt's text is returned
instead. -/
theorem getSelectedSystemPrompt_cex :
    (getSystemPrompts [⟨"c1", "Custom", "", false, none, none⟩]).find?
        (fun p => p.id == "c1") = some ⟨"c1", "Custom", "", false, none, none⟩ ∧
    getSelectedSystemPrompt (some "c1") [⟨"c1", "Custom", "", false, none, none⟩]
      = defaultAssistantPrompt.prompt ∧
    defaultAssistantPrompt.prompt
      ≠ (⟨"c1", "Custom", "", false, none, none⟩ : SystemPrompt).prompt := by
  refine ⟨by decide, by decide, by decide⟩

/-- C9 (amended): `getSelectedSystemPrompt` returns the first built-in
prompt's text (the Default Assistant text) when no preference id is stored,
when the stored id is the empty string (falsy), and when the stored id does
not resolve in the merged catalog; when a non-empty stored id resolves to a
prompt with non-empty text, that prompt's text is returned.  The first
built-in prompt is the head of `DEFAULT_SYSTEM_PROMPTS`. -/
theorem getSelectedSystemPrompt_spec :
    DEFAULT_SYSTEM_PROMPTS.head? = some defaultAssistantPrompt ∧
    (∀ customPrompts, getSelectedSystemPrompt none customPrompts
      = defaultAssistantPrompt.prompt) ∧
    (∀ customPrompts, getSelectedSystemPrompt (some "") customPrompts
      = defaultAssistantPrompt.prompt) ∧
    (∀ promptId customPrompts, promptId ≠ "" →
      (getSystemPrompts customPrompts).find? (fun p => p.id == promptId) = none →
      getSelectedSystemPrompt (some promptId) customPrompts
        = defaultAssistantPrompt.prompt) ∧
    (∀ promptId customPrompts p, promptId ≠ "" →
      (getSystemPrompts customPrompts).find? (fun p => p.id == promptId) = some p →
      p.prompt ≠ "" →
      getSelectedSystemPrompt (some promptId) customPrompts = p.prompt) := by
  refine ⟨rfl, fun _ => rfl, fun _ => rfl, ?_, ?_⟩
  · intro promptId customPrompts hne hfind
    simp [getSelectedSystemPrompt, hne, hfind]
  · intro promptId customPrompts p hne hfind hp
    simp [getSelectedSystemPrompt, hne, hfind, hp]

/-- A witness instantiating the resolving conjunct of
`getSelectedSystemPrompt_spec` on a concrete custom prompt. -/
theorem getSelectedSystemPrompt_spec_inst :
    ("c2" : String) ≠ "" ∧
    (getSystemPrompts [⟨"c2", "n", "Hello", false, none, none⟩]).find?
        (fun p => p.id == "c2") = some ⟨"c2", "n", "Hello", false, none, none⟩ ∧
    (⟨"c2", "n", "Hello", false, none, none⟩ : SystemPrompt).prompt ≠ "" ∧
    getSelectedSystemPrompt (some "c2") [⟨"c2", "n", "Hello", false, none, none⟩]
      = (⟨"c2", "n", "Hello", false, none, none⟩ : SystemPrompt).prompt :=
  ⟨by decide, by decide, by decide,
    getSelectedSystemPrompt_spec.2.2.2.2 "c2" [⟨"c2", "n", "Hello", false, none, none⟩]
      ⟨"c2", "n", "Hello", false, none, none⟩ (by decide) (by decide) (by decide)⟩
